import Mathlib

/-!
Verification of the photomosaic generator (photomosaic.py).

The development shallowly embeds the program's data model and operations:

* the sqlite tables `Images` and `Colors` become lists of records inside a
  `DB` structure, with the rowid counters made explicit;
* `find_match`'s SQL query (join, `WHERE usages <= ?`, computed
  `ab_distance` column, `ORDER BY ab_distance ASC LIMIT 10`, `fetchone`)
  becomes an explicit join/filter/sort/take pipeline over those lists;
* external numeric collaborators that are not part of this repository
  (scipy's k-means clustering, PIL's resampling, the `color_spaces`
  rgb-to-lab conversion) are taken as function parameters; properties the
  source relies on (a k-means codebook has at most `k` centroids and its
  centroids are uint8 colour values) appear as hypotheses;
* sqlite `REAL` columns (the Lab channels) are modelled by `ℚ`; the claims
  settled here do not depend on floating-point rounding;
* Python-level failures (the unbound name `rgb2lab` that makes every
  `find_match` call raise `NameError` at its first statement, the undefined
  `crop_width` name in `crop_to_fit`, the `fetchone` result `None` that
  would be subscripted, integer division by zero) are modelled with
  `Except` error values.

Mutation of the database and of PIL image objects (`img.thumbnail` resizes
in place) is modelled by explicit state passing: each operation returns the
updated state alongside its result.
-/

namespace Photomosaic

/-! ## Stable insertion sort

`sqlite`'s `ORDER BY` and numpy's `argsort` order rows by a key; among rows
tied on the key the order is implementation defined.  The embedding fixes a
concrete (stable) order via insertion sort; the properties proved below
(sortedness, membership, length) are independent of the tie order. -/

def insertLE {α : Type} (le : α → α → Bool) (x : α) : List α → List α
  | [] => [x]
  | y :: ys => if le x y then x :: y :: ys else y :: insertLE le x ys

def isort {α : Type} (le : α → α → Bool) : List α → List α
  | [] => []
  | x :: xs => insertLE le x (isort le xs)

theorem mem_insertLE {α : Type} (le : α → α → Bool) (x a : α) (l : List α) :
    a ∈ insertLE le x l ↔ a = x ∨ a ∈ l := by
  induction l with
  | nil => simp [insertLE]
  | cons y ys ih =>
    by_cases h : le x y = true
    · simp [insertLE, h]
    · simp only [insertLE, h, if_false, Bool.false_eq_true, List.mem_cons, ih]
      tauto

theorem length_insertLE {α : Type} (le : α → α → Bool) (x : α) (l : List α) :
    (insertLE le x l).length = l.length + 1 := by
  induction l with
  | nil => rfl
  | cons y ys ih =>
    by_cases h : le x y = true <;> simp [insertLE, h, ih]

theorem mem_isort {α : Type} (le : α → α → Bool) (a : α) (l : List α) :
    a ∈ isort le l ↔ a ∈ l := by
  induction l with
  | nil => simp [isort]
  | cons y ys ih => simp [isort, mem_insertLE, ih]

theorem length_isort {α : Type} (le : α → α → Bool) (l : List α) :
    (isort le l).length = l.length := by
  induction l with
  | nil => rfl
  | cons y ys ih => simp [isort, length_insertLE, ih]

theorem pairwise_insertLE {α : Type} (le : α → α → Bool)
    (htot : ∀ a b, le a b = true ∨ le b a = true)
    (htrans : ∀ a b c, le a b = true → le b c = true → le a c = true)
    (x : α) (l : List α) (hl : l.Pairwise fun a b => le a b = true) :
    (insertLE le x l).Pairwise fun a b => le a b = true := by
  induction l with
  | nil => simp [insertLE]
  | cons y ys ih =>
    obtain ⟨hy, hys⟩ := List.pairwise_cons.mp hl
    by_cases h : le x y = true
    · rw [insertLE, if_pos h]
      refine List.pairwise_cons.mpr ⟨?_, hl⟩
      intro z hz
      rcases List.mem_cons.mp hz with rfl | hz2
      · exact h
      · exact htrans x y z h (hy z hz2)
    · rw [insertLE, if_neg h]
      refine List.pairwise_cons.mpr ⟨?_, ih hys⟩
      intro z hz
      rcases (mem_insertLE le x z ys).mp hz with rfl | hz2
      · exact (htot z y).resolve_left h
      · exact hy z hz2

theorem pairwise_isort {α : Type} (le : α → α → Bool)
    (htot : ∀ a b, le a b = true ∨ le b a = true)
    (htrans : ∀ a b c, le a b = true → le b c = true → le a c = true)
    (l : List α) :
    (isort le l).Pairwise fun a b => le a b = true := by
  induction l with
  | nil => simp [isort]
  | cons y ys ih => exact pairwise_insertLE le htot htrans y (isort le ys) ih

theorem isort_head_min {α : Type} (le : α → α → Bool)
    (htot : ∀ a b, le a b = true ∨ le b a = true)
    (htrans : ∀ a b c, le a b = true → le b c = true → le a c = true)
    (l : List α) (m : α) (rest : List α)
    (h : isort le l = m :: rest) :
    ∀ c ∈ l, le m c = true := by
  intro c hc
  have hc2 : c ∈ m :: rest := h ▸ (mem_isort le c l).mpr hc
  rcases List.mem_cons.mp hc2 with rfl | hc3
  · rcases htot c c with h1 | h1 <;> exact h1
  · have hp := pairwise_isort le htot htrans l
    rw [h] at hp
    exact (List.pairwise_cons.mp hp).1 c hc3

theorem isort_head_mem {α : Type} (le : α → α → Bool)
    (l : List α) (m : α) (rest : List α)
    (h : isort le l = m :: rest) : m ∈ l :=
  (mem_isort le m l).mp (h ▸ List.mem_cons_self m rest)

/-! ## Data model

`create_tables` (photomosaic.py lines 94-113) declares
`Images(image_id INTEGER PRIMARY KEY, usages, w, h, filename TEXT UNIQUE)`
and `Colors(color_id INTEGER PRIMARY KEY, image_id, rank, L, a, b, red,
green, blue)`.  The integer rowid assignment (`c.lastrowid`) is modelled by
explicit `next_image_id` / `next_color_id` counters in the `DB` state. -/

structure ImageRow where
  image_id : Nat
  usages : Nat
  w : Nat
  h : Nat
  filename : String
deriving DecidableEq

structure ColorRow where
  color_id : Nat
  image_id : Nat
  rank : Nat
  L : ℚ
  a : ℚ
  b : ℚ
  red : Nat
  green : Nat
  blue : Nat
deriving DecidableEq

structure DB where
  images : List ImageRow
  colors : List ColorRow
  next_image_id : Nat
  next_color_id : Nat
deriving DecidableEq

/-- Row shape returned by `find_match`'s SELECT: `image_id, L, a, b,
ab_distance, rank, usages, filename` (photomosaic.py lines 190-196). -/
structure Cand where
  image_id : Nat
  L : ℚ
  a : ℚ
  b : ℚ
  ab_distance : ℚ
  rank : Nat
  usages : Nat
  filename : String
deriving DecidableEq

/-- Failure modes of the matcher.  `nameError` is the `NameError` raised
at line 185 on every `find_match` call: the bare name `rgb2lab` is bound
nowhere in the module, which only does `import color_spaces as cs` (the
working call site at line 46 writes `cs.rgb2lab`), and Python evaluates
`map`'s arguments left to right, so the error fires before
`salient_colors(tile)` and before the query.  `poolExhausted` is the
failure of the query pipeline of lines 186-207 when `fetchone` returns no
row and line 204 subscripts `None` — the condition the spec names
PoolExhausted — unreachable in the staged module because the `NameError`
precedes it on every call. -/
inductive MatchErr where
  | nameError
  | poolExhausted
deriving DecidableEq

/-- First row of `Images` satisfying `image_id = id`, as sqlite's primary
key lookup would find it. -/
def imageRowOf (db : DB) (id : Nat) : Option ImageRow :=
  db.images.find? fun r => r.image_id == id

/-- The rows produced by the query's FROM/JOIN/WHERE/SELECT part
(photomosaic.py lines 190-199): every `Colors` row joined with its owning
`Images` row via `USING (image_id)`, kept when `usages <= max_usages`, with
the computed column `ab_distance = (a-ta)*(a-ta) + (b-tb)*(b-tb)`. -/
def selectCands (ta tb : ℚ) (db : DB) (max_usages : Nat) : List Cand :=
  db.colors.filterMap fun cr =>
    match db.images.find? fun r => r.image_id == cr.image_id with
    | none => none
    | some ir =>
      if ir.usages ≤ max_usages then
        some { image_id := cr.image_id, L := cr.L, a := cr.a, b := cr.b,
               ab_distance := (cr.a - ta) * (cr.a - ta) + (cr.b - tb) * (cr.b - tb),
               rank := cr.rank, usages := ir.usages, filename := ir.filename }
      else none

/-- Comparison used for `ORDER BY ab_distance ASC`. -/
def leDist (c d : Cand) : Bool := decide (c.ab_distance ≤ d.ab_distance)

/-- Effect of `UPDATE Images SET usages=usages+1 WHERE image_id=?`
(photomosaic.py line 204) on one row. -/
def incUsage (id : Nat) (r : ImageRow) : ImageRow :=
  if r.image_id = id then { r with usages := r.usages + 1 } else r

/-- The SELECT/UPDATE pipeline of `find_match` (photomosaic.py lines
186-207), given the target Lab chroma `(ta, tb)` that line 185 was meant
to produce: run the SELECT (ordered ascending by `ab_distance`,
`LIMIT 10`), `fetchone` the first row, and on success increment the chosen
image's `usages` before returning; when `fetchone` yields no row the code
raises on `match['image_id']` and the database is returned unchanged.  In
the staged module this pipeline is dead code: every `find_match` call
raises `NameError` at line 185 (see `find_match`) before reaching it.  It
is embedded because it is the matcher the spec describes; the theorems
about it record what it would do were the line-185 slip repaired. -/
def find_match_query (ta tb : ℚ) (db : DB) (max_usages : Nat) :
    Except MatchErr Cand × DB :=
  match ((isort leDist (selectCands ta tb db max_usages)).take 10).head? with
  | none => (Except.error MatchErr.poolExhausted, db)
  | some m =>
      (Except.ok m, { db with images := db.images.map (incUsage m.image_id) })

/-! ## Facts about the matcher pipeline -/

theorem leDist_total : ∀ c d, leDist c d = true ∨ leDist d c = true := by
  intro c d
  rcases le_total c.ab_distance d.ab_distance with h | h
  · left; simpa [leDist]
  · right; simpa [leDist]

theorem leDist_trans :
    ∀ c d e, leDist c d = true → leDist d e = true → leDist c e = true := by
  intro c d e h1 h2
  simp only [leDist, decide_eq_true_eq] at h1 h2 ⊢
  exact le_trans h1 h2

theorem incUsage_image_id (id : Nat) (r : ImageRow) :
    (incUsage id r).image_id = r.image_id := by
  unfold incUsage; split <;> rfl

theorem find?_map_incUsage (mid id : Nat) (l : List ImageRow) :
    (l.map (incUsage mid)).find? (fun r => r.image_id == id) =
      (l.find? fun r => r.image_id == id).map (incUsage mid) := by
  induction l with
  | nil => rfl
  | cons r rs ih =>
    cases hp : (r.image_id == id) with
    | true => simp [List.find?, incUsage_image_id, hp]
    | false => simp [List.find?, incUsage_image_id, hp, ih]

theorem mem_selectCands {ta tb : ℚ} {db : DB} {maxU : Nat} {m : Cand}
    (hm : m ∈ selectCands ta tb db maxU) :
    ∃ cr ∈ db.colors, ∃ ir,
      (db.images.find? fun r => r.image_id == cr.image_id) = some ir ∧
      ir.usages ≤ maxU ∧
      m = { image_id := cr.image_id, L := cr.L, a := cr.a, b := cr.b,
            ab_distance := (cr.a - ta) * (cr.a - ta) + (cr.b - tb) * (cr.b - tb),
            rank := cr.rank, usages := ir.usages, filename := ir.filename } := by
  unfold selectCands at hm
  rw [List.mem_filterMap] at hm
  obtain ⟨cr, hcr, hf⟩ := hm
  cases hfind : db.images.find? fun r => r.image_id == cr.image_id with
  | none => simp only [hfind] at hf; exact absurd hf (by simp)
  | some ir =>
    simp only [hfind] at hf
    by_cases hu : ir.usages ≤ maxU
    · rw [if_pos hu] at hf
      exact ⟨cr, hcr, ir, hfind, hu, (Option.some.inj hf).symm⟩
    · rw [if_neg hu] at hf; simp at hf

theorem find_match_query_ok {ta tb : ℚ} {db : DB} {maxU : Nat} {m : Cand}
    {db' : DB} (h : find_match_query ta tb db maxU = (Except.ok m, db')) :
    (∃ rest, isort leDist (selectCands ta tb db maxU) = m :: rest) ∧
    db' = { db with images := db.images.map (incUsage m.image_id) } := by
  unfold find_match_query at h
  cases hs : isort leDist (selectCands ta tb db maxU) with
  | nil => rw [hs] at h; simp at h
  | cons m0 rest =>
    rw [hs] at h
    have hhd : ((m0 :: rest).take 10).head? = some m0 := rfl
    rw [hhd] at h
    simp only [Prod.mk.injEq, Except.ok.injEq] at h
    obtain ⟨h1, h2⟩ := h
    subst h1
    exact ⟨⟨rest, rfl⟩, h2.symm⟩

/-! ## Properties of the unreachable query pipeline

These theorems characterise `find_match_query`, the lines 186-207 that no
staged call reaches.  They support the analysis of claims C1-C4 — the
claims themselves are settled against `find_match`, further below — by
recording that the pipeline filters with `usages <= max_usages`, selects
the chroma-nearest eligible row, increments exactly one counter, and fails
exactly on an empty eligible set. -/

/-- Single-image pool whose image already has `usages = 5`, the default
cap.  Because the query's filter is `usages <= max_usages`, this image is
still eligible. -/
def dbCap : DB :=
  ⟨[⟨1, 5, 10, 10, "a.jpg"⟩], [⟨1, 1, 1, 0, 0, 0, 10, 10, 10⟩], 2, 2⟩

/-- Row `find_match_query` yields on `dbCap` with target chroma (0, 0). -/
def candCap : Cand := ⟨1, 0, 0, 0, 0, 1, 5, "a.jpg"⟩

/-- `dbCap` after the pipeline's increment of the usage counter. -/
def dbCapAfter : DB :=
  ⟨[⟨1, 6, 10, 10, "a.jpg"⟩], [⟨1, 1, 1, 0, 0, 0, 10, 10, 10⟩], 2, 2⟩

/-- Cap boundary of the pipeline: the SQL filter at photomosaic.py line
199 is `usages <= ?`, not `usages < ?`, so on `dbCap` — whose image sits
exactly at the cap — the pipeline still selects the image, with
pre-increment usage count equal to `max_usages`.  Even a repaired
`find_match` would therefore not obey claim C1's strict reading of the
cap. -/
theorem find_match_query_cap_boundary :
    (find_match_query 0 0 dbCap 5).1 = Except.ok candCap ∧ candCap.usages = 5 := by
  constructor
  · simp [find_match_query, selectCands, isort, insertLE, dbCap, candCap,
      List.filterMap, List.find?, incUsage]
  · rfl

/-- Cap discipline of the pipeline: a successful `find_match_query` never
returns a candidate whose pre-increment usage count is strictly greater
than `max_usages`, and once the returned candidate's pre-increment count
has reached `max_usages`, the increment performed by the call excludes
that image from the eligible set of any subsequent pipeline query. -/
theorem find_match_query_usage_cap (ta tb : ℚ) (db : DB) (maxU : Nat) (m : Cand)
    (db' : DB) (h : find_match_query ta tb db maxU = (Except.ok m, db')) :
    m.usages ≤ maxU ∧
    (m.usages = maxU → ∀ ta2 tb2 c, c ∈ selectCands ta2 tb2 db' maxU →
      c.image_id ≠ m.image_id) := by
  obtain ⟨⟨rest, hs⟩, hdb⟩ := find_match_query_ok h
  have hm : m ∈ selectCands ta tb db maxU := isort_head_mem leDist _ m rest hs
  obtain ⟨cr, hcr, ir, hfind, hu, hmeq⟩ := mem_selectCands hm
  have husages : m.usages = ir.usages := by rw [hmeq]
  have himgid : m.image_id = cr.image_id := by rw [hmeq]
  refine ⟨by rw [husages]; exact hu, ?_⟩
  intro hcap ta2 tb2 c hc hideq
  obtain ⟨cr2, hcr2, ir2, hfind2, hu2, hceq⟩ := mem_selectCands hc
  have hcid : c.image_id = cr2.image_id := by rw [hceq]
  simp only [hdb] at hfind2
  rw [find?_map_incUsage] at hfind2
  have hcrid : cr2.image_id = cr.image_id := by rw [← hcid, hideq, himgid]
  rw [hcrid, hfind] at hfind2
  have hir2 : ir2 = incUsage m.image_id ir := (Option.some.inj hfind2).symm
  have hirid : ir.image_id = cr.image_id := by
    simpa using List.find?_some hfind
  have hinc : ir2.usages = ir.usages + 1 := by
    rw [hir2, incUsage, if_pos (by rw [hirid, ← himgid])]
  omega

/-- The cap-discipline property exercised concretely on `dbCap`. -/
theorem find_match_query_usage_cap_example : candCap.usages ≤ 5 :=
  (find_match_query_usage_cap 0 0 dbCap 5 candCap dbCapAfter (by
    simp [find_match_query, selectCands, isort, insertLE, dbCap, candCap,
      dbCapAfter, List.filterMap, List.find?, incUsage])).1

/-- Nearest-candidate behaviour of the pipeline: with at least one
eligible signature entry, `find_match_query` succeeds and returns an
eligible entry whose score is the squared Euclidean distance on the (a, b)
chroma axes only (L does not occur in it) and is minimal among all
eligible entries — rank and usage count enter only through the eligibility
set, never the score; the sorted-ascending/LIMIT 10/fetchone order is the
fixed implementation-defined tie-break. -/
theorem find_match_query_nearest (ta tb : ℚ) (db : DB) (maxU : Nat)
    (h : selectCands ta tb db maxU ≠ []) :
    ∃ m db', find_match_query ta tb db maxU = (Except.ok m, db') ∧
      m ∈ selectCands ta tb db maxU ∧
      m.ab_distance = (m.a - ta) * (m.a - ta) + (m.b - tb) * (m.b - tb) ∧
      ∀ c ∈ selectCands ta tb db maxU, m.ab_distance ≤ c.ab_distance := by
  cases hs : isort leDist (selectCands ta tb db maxU) with
  | nil =>
    exfalso
    apply h
    have hlen := length_isort leDist (selectCands ta tb db maxU)
    rw [hs] at hlen
    exact List.length_eq_zero.mp hlen.symm
  | cons m rest =>
    have hmem : m ∈ selectCands ta tb db maxU :=
      isort_head_mem leDist _ m rest hs
    refine ⟨m, { db with images := db.images.map (incUsage m.image_id) },
      ?_, hmem, ?_, ?_⟩
    · unfold find_match_query
      rw [hs]
      rfl
    · obtain ⟨cr, hcr, ir, hfind, hu, hmeq⟩ := mem_selectCands hmem
      rw [hmeq]
    · intro c hc
      have hle := isort_head_min leDist leDist_total leDist_trans _ m rest hs c hc
      simpa [leDist] using hle

/-- The pipeline succeeding concretely on `dbCap`. -/
theorem find_match_query_nearest_example :
    (find_match_query 0 0 dbCap 5).1.isOk = true := by
  obtain ⟨m, db', heq, -, -, -⟩ := find_match_query_nearest 0 0 dbCap 5 (by
    simp [selectCands, dbCap, List.filterMap, List.find?])
  rw [heq]
  rfl

/-- Frame effect of the pipeline: when `find_match_query` succeeds, the
returned state has the chosen image's row with its usage count incremented
by exactly one and all its other columns intact, every other `Images` row
unchanged, and the `Colors` table unchanged. -/
theorem find_match_query_frame (ta tb : ℚ) (db : DB) (maxU : Nat) (m : Cand)
    (db' : DB) (h : find_match_query ta tb db maxU = (Except.ok m, db')) :
    db'.colors = db.colors ∧
    imageRowOf db' m.image_id =
      (imageRowOf db m.image_id).map (fun r => { r with usages := r.usages + 1 }) ∧
    ∀ id, id ≠ m.image_id → imageRowOf db' id = imageRowOf db id := by
  obtain ⟨⟨rest, hs⟩, hdb⟩ := find_match_query_ok h
  subst hdb
  refine ⟨rfl, ?_, ?_⟩
  · simp only [imageRowOf]
    rw [find?_map_incUsage]
    cases hf : db.images.find? fun r => r.image_id == m.image_id with
    | none => rfl
    | some r =>
      have hrid : r.image_id = m.image_id := by simpa using List.find?_some hf
      simp [incUsage, hrid]
  · intro id hid
    simp only [imageRowOf]
    rw [find?_map_incUsage]
    cases hf : db.images.find? fun r => r.image_id == id with
    | none => rfl
    | some r =>
      have hrid : r.image_id = id := by simpa using List.find?_some hf
      have : incUsage m.image_id r = r := by
        rw [incUsage, if_neg (by rw [hrid]; exact hid)]
      simp [this]

/-- The frame effect exercised concretely on `dbCap`. -/
theorem find_match_query_frame_example :
    dbCapAfter.colors = dbCap.colors ∧
    imageRowOf dbCapAfter candCap.image_id =
      (imageRowOf dbCap candCap.image_id).map
        (fun r => { r with usages := r.usages + 1 }) := by
  have h := find_match_query_frame 0 0 dbCap 5 candCap dbCapAfter (by
    simp [find_match_query, selectCands, isort, insertLE, dbCap, candCap,
      dbCapAfter, List.filterMap, List.find?, incUsage])
  exact ⟨h.1, h.2.1⟩

/-- Single-image pool whose image has `usages = 9 > 5`: no signature entry
passes the usage filter. -/
def dbExhausted : DB :=
  ⟨[⟨1, 9, 10, 10, "a.jpg"⟩], [⟨1, 1, 1, 0, 0, 0, 10, 10, 10⟩], 2, 2⟩

/-- Exhaustion behaviour of the pipeline: `find_match_query` fails
exactly when no signature entry passes the usage filter (every joined
entry's image already exceeds the cap), and on failure the database — in
particular every usage counter — is unchanged.  The failure is the
line-204 subscript of `fetchone`'s `None`, the condition the spec names
PoolExhausted. -/
theorem find_match_query_exhausted (ta tb : ℚ) (db : DB) (maxU : Nat) :
    ((find_match_query ta tb db maxU).1 = Except.error MatchErr.poolExhausted ↔
      selectCands ta tb db maxU = []) ∧
    ∀ e, (find_match_query ta tb db maxU).1 = Except.error e →
      (find_match_query ta tb db maxU).2 = db := by
  cases hs : isort leDist (selectCands ta tb db maxU) with
  | nil =>
    have hsel : selectCands ta tb db maxU = [] := by
      have hlen := length_isort leDist (selectCands ta tb db maxU)
      rw [hs] at hlen
      exact List.length_eq_zero.mp hlen.symm
    have hfm : find_match_query ta tb db maxU =
        (Except.error MatchErr.poolExhausted, db) := by
      unfold find_match_query
      rw [hs]
      rfl
    exact ⟨⟨fun _ => hsel, fun _ => by rw [hfm]⟩, fun e _ => by rw [hfm]⟩
  | cons m rest0 =>
    have hne : selectCands ta tb db maxU ≠ [] := by
      intro hsel
      rw [hsel] at hs
      simp [isort] at hs
    have hfm : find_match_query ta tb db maxU =
        (Except.ok m, { db with images := db.images.map (incUsage m.image_id) }) := by
      unfold find_match_query
      rw [hs]
      rfl
    refine ⟨⟨?_, fun hsel => absurd hsel hne⟩, ?_⟩
    · intro he; rw [hfm] at he; simp at he
    · intro e he; rw [hfm] at he; simp at he

/-- The pipeline's exhaustion failure exercised concretely on
`dbExhausted`, whose only image exceeds the cap. -/
theorem find_match_query_exhausted_example :
    (find_match_query 0 0 dbExhausted 5).1 =
      Except.error MatchErr.poolExhausted :=
  (find_match_query_exhausted 0 0 dbExhausted 5).1.mpr (by
    simp [selectCands, dbExhausted, List.filterMap, List.find?])

/-! ## Registration (`insert`, photomosaic.py lines 63-82)

`insert` writes one `Images` row (with `usages = 0`) and one `Colors` row
per colour of the signature (`rank = 1 + i`).  A duplicate filename
violates the `filename TEXT UNIQUE` constraint of `create_tables`, raising
`sqlite3.IntegrityError` on the very first INSERT; the handler prints a
message and skips the image, so nothing is written.  The model pairs the
RGB and Lab lists (the source indexes both by the same `i`). -/

inductive InsertOutcome where
  | inserted
  | duplicateImage
deriving DecidableEq

def insert (filename : String) (w h : Nat) (rgb : List (Nat × Nat × Nat))
    (lab : List (ℚ × ℚ × ℚ)) (db : DB) : DB × InsertOutcome :=
  if db.images.any fun r => r.filename == filename then
    (db, InsertOutcome.duplicateImage)
  else
    (⟨db.images ++ [⟨db.next_image_id, 0, w, h, filename⟩],
      db.colors ++ ((rgb.zip lab).enum.map fun p =>
        ⟨db.next_color_id + p.1, db.next_image_id, 1 + p.1,
         p.2.2.1, p.2.2.2.1, p.2.2.2.2,
         p.2.1.1, p.2.1.2.1, p.2.1.2.2⟩),
      db.next_image_id + 1, db.next_color_id + (rgb.zip lab).length⟩,
     InsertOutcome.inserted)

/-- Claim C6.  Registering a filename that is already in the pool (the
uniqueness invariant gives it exactly one `Images` row) reports
DuplicateImage, leaves the whole pool state — in particular the existing
`Colors` rows — exactly as it was, and that filename still has exactly one
`Images` row afterwards. -/
theorem insert_duplicate (fn : String) (w h : Nat)
    (rgb : List (Nat × Nat × Nat)) (lab : List (ℚ × ℚ × ℚ)) (db : DB)
    (hdup : (db.images.filter fun r => r.filename == fn).length = 1) :
    insert fn w h rgb lab db = (db, InsertOutcome.duplicateImage) ∧
    (((insert fn w h rgb lab db).1.images.filter
        fun r => r.filename == fn).length = 1) ∧
    (insert fn w h rgb lab db).1.colors = db.colors := by
  have hex : ∃ r ∈ db.images, (r.filename == fn) = true := by
    have hne : (db.images.filter fun r => r.filename == fn) ≠ [] := by
      intro hnil
      rw [hnil] at hdup
      simp at hdup
    obtain ⟨r, hr⟩ := List.exists_mem_of_ne_nil _ hne
    exact ⟨r, (List.mem_filter.mp hr).1, (List.mem_filter.mp hr).2⟩
  have hany : (db.images.any fun r => r.filename == fn) = true :=
    List.any_eq_true.mpr hex
  have heq : insert fn w h rgb lab db = (db, InsertOutcome.duplicateImage) := by
    rw [insert, if_pos hany]
  exact ⟨heq, by rw [heq]; exact hdup, by rw [heq]⟩

/-- Pool holding exactly one image named "a.jpg". -/
def dbDup : DB :=
  ⟨[⟨1, 0, 10, 10, "a.jpg"⟩], [⟨1, 1, 1, 0, 0, 0, 10, 10, 10⟩], 2, 2⟩

/-- Witness for claim C6: re-registering "a.jpg" into `dbDup` is a no-op. -/
theorem insert_duplicate_witness :
    insert "a.jpg" 20 20 [(1, 2, 3)] [(0, 0, 0)] dbDup =
      (dbDup, InsertOutcome.duplicateImage) ∧
    (((insert "a.jpg" 20 20 [(1, 2, 3)] [(0, 0, 0)] dbDup).1.images.filter
        fun r => r.filename == "a.jpg").length = 1) ∧
    (insert "a.jpg" 20 20 [(1, 2, 3)] [(0, 0, 0)] dbDup).1.colors = dbDup.colors :=
  insert_duplicate "a.jpg" 20 20 [(1, 2, 3)] [(0, 0, 0)] dbDup (by
    simp [dbDup, List.filter])

/-! ## Partitioning (`partition_target`, photomosaic.py lines 151-166)

The grid has `img.size[1] // tile_size[1]` rows of
`img.size[0] // tile_size[0]` crop boxes each; each box is
`(x*tile_w, y*tile_h, (x+1)*tile_w, (y+1)*tile_h)`.  A tile is represented
by its crop box. -/

def partition_target (img_w img_h tile_w tile_h : Nat) :
    List (List (Nat × Nat × Nat × Nat)) :=
  (List.range (img_h / tile_h)).map fun y =>
    (List.range (img_w / tile_w)).map fun x =>
      (x * tile_w, y * tile_h, (x + 1) * tile_w, (y + 1) * tile_h)

/-- Claim C7.  For positive tile dimensions the grid has exactly
`img_h / tile_h` (floor) rows, each of exactly `img_w / tile_w` (floor)
columns — remainder strips are simply never enumerated — and in particular
a 310x200 target with tile size (100, 100) yields 2 rows of 3 columns.
The positivity hypotheses mirror Python, where a zero tile dimension would
raise `ZeroDivisionError`; Lean's total division does not need them. -/
theorem partition_target_grid (img_w img_h tile_w tile_h : Nat)
    (_htw : 0 < tile_w) (_hth : 0 < tile_h) :
    (partition_target img_w img_h tile_w tile_h).length = img_h / tile_h ∧
    (∀ row ∈ partition_target img_w img_h tile_w tile_h,
      row.length = img_w / tile_w) ∧
    (partition_target 310 200 100 100).length = 2 ∧
    (∀ row ∈ partition_target 310 200 100 100, row.length = 3) := by
  refine ⟨by simp [partition_target], ?_, by rfl, ?_⟩
  · intro row hrow
    obtain ⟨y, hy, hrow2⟩ := List.mem_map.mp hrow
    rw [← hrow2]
    simp
  · intro row hrow
    obtain ⟨y, hy, hrow2⟩ := List.mem_map.mp hrow
    rw [← hrow2]
    rfl

/-- Witness for claim C7 at the spec's concrete instance. -/
theorem partition_target_grid_witness :
    (partition_target 310 200 100 100).length = 200 / 100 ∧
    (partition_target 310 200 100 100).length = 2 := by
  have h := partition_target_grid 310 200 100 100 (by decide) (by decide)
  exact ⟨h.1, h.2.2.1⟩

/-! ## Assembly (`assemble_mosaic`, photomosaic.py lines 168-178)

The canvas is created with size
`(len(tiles[0]) * tile_w, len(tiles) * tile_h)` and each tile is pasted at
`(x * tile_w, y * tile_h)`.  The model records the canvas size and the list
of paste operations (tile, position); `paste` writes the tile's pixels
verbatim (no blending), so the paste list determines the canvas. -/

def assemble_mosaic {α : Type} (tiles : List (List α)) (tile_w tile_h : Nat) :
    (Nat × Nat) × List (α × Nat × Nat) :=
  (((tiles.headD []).length * tile_w, tiles.length * tile_h),
   tiles.enum.flatMap fun yrow =>
     yrow.2.enum.map fun xtile => (xtile.2, xtile.1 * tile_w, yrow.1 * tile_h))

theorem get?_mem_enumFrom {α : Type} (l : List α) :
    ∀ (i n : Nat) (a : α), l.get? i = some a → (n + i, a) ∈ l.enumFrom n := by
  induction l with
  | nil => intro i n a h; simp [List.get?] at h
  | cons x xs ih =>
    intro i n a h
    cases i with
    | zero =>
      have : x = a := by simpa [List.get?] using h
      subst this
      simp [List.enumFrom]
    | succ j =>
      have hmem := ih j (n + 1) a (by simpa [List.get?] using h)
      have heq : n + (j + 1) = (n + 1) + j := by omega
      rw [heq]
      simp only [List.enumFrom, List.mem_cons]
      exact Or.inr hmem

theorem get?_mem_enum {α : Type} (l : List α) (i : Nat) (a : α)
    (h : l.get? i = some a) : (i, a) ∈ l.enum := by
  have := get?_mem_enumFrom l i 0 a h
  simpa [List.enum] using this

/-- Claim C8.  For a non-empty grid of `rows` rows each of `cols` tiles,
the canvas measures exactly `(cols * tile_w, rows * tile_h)` pixels, and
the tile found at grid position `(x, y)` is pasted — verbatim, with no
blending — at pixel offset `(x * tile_w, y * tile_h)`; a 3-column, 2-row
grid with tile size (100, 100) hence yields a 300x200 canvas. -/
theorem assemble_mosaic_spec {α : Type} (tiles : List (List α))
    (tile_w tile_h rows cols : Nat) (h0 : tiles ≠ [])
    (hr : tiles.length = rows) (hc : ∀ row ∈ tiles, row.length = cols) :
    (assemble_mosaic tiles tile_w tile_h).1 = (cols * tile_w, rows * tile_h) ∧
    ∀ (y x : Nat) (row : List α) (t : α), tiles.get? y = some row →
      row.get? x = some t →
      (t, x * tile_w, y * tile_h) ∈ (assemble_mosaic tiles tile_w tile_h).2 := by
  constructor
  · cases tiles with
    | nil => exact absurd rfl h0
    | cons r rs =>
      have hcols : r.length = cols := hc r (List.mem_cons_self r rs)
      simp [assemble_mosaic, hcols, hr]
  · intro y x row t hy hx
    have hyrow : (y, row) ∈ tiles.enum := get?_mem_enum tiles y row hy
    have hxt : (x, t) ∈ row.enum := get?_mem_enum row x t hx
    apply List.mem_flatMap.mpr
    exact ⟨(y, row), hyrow, List.mem_map.mpr ⟨(x, t), hxt, rfl⟩⟩

/-- Witness for claim C8 on a concrete 2-row, 3-column grid of numbered
tiles with tile size (100, 100): the canvas is 300x200 and the tile at
grid position (1, 1) lands at pixel offset (100, 100). -/
theorem assemble_mosaic_spec_witness :
    (assemble_mosaic [[1, 2, 3], [4, 5, 6]] 100 100).1 = (3 * 100, 2 * 100) ∧
    ((5 : Nat), 1 * 100, 1 * 100) ∈ (assemble_mosaic [[1, 2, 3], [4, 5, 6]] 100 100).2 :=
  ⟨(assemble_mosaic_spec [[1, 2, 3], [4, 5, 6]] 100 100 2 3 (by simp)
      rfl (by decide)).1,
   (assemble_mosaic_spec [[1, 2, 3], [4, 5, 6]] 100 100 2 3 (by simp)
      rfl (by decide)).2 1 1 [4, 5, 6] 5 rfl rfl⟩

/-! ## Cropping (`crop_to_fit`, photomosaic.py lines 215-236)

The source computes both aspect ratios with integer floor division
(`img_w // img_h` and `tile_w // tile_h`).  In the branch taken when
`img_aspect > tile_aspect` it reads the name `crop_width`, which is defined
nowhere in the module (the line above defines `crop_w`), so Python raises
`NameError` whenever that branch runs.  The other branch crops
`(0, y_offset, crop_w, y_offset + crop_h)` and resizes to exactly
`tile_size`.  Python `//` floors (negatives round down), hence `Int.fdiv`
for the offset; `img_h = 0`, `tile_h = 0` and `tile_aspect = 0` raise
`ZeroDivisionError` at the corresponding division, in source order. -/

structure CropResult where
  x_offset : Int
  y_offset : Int
  crop_w : Nat
  crop_h : Nat
  out_w : Nat
  out_h : Nat
deriving DecidableEq

inductive CropErr where
  | nameError
  | divByZero
deriving DecidableEq

def crop_to_fit (img_w img_h tile_w tile_h : Nat) :
    Except CropErr CropResult :=
  if img_h = 0 then Except.error CropErr.divByZero
  else if tile_h = 0 then Except.error CropErr.divByZero
  else if tile_w / tile_h < img_w / img_h then
    Except.error CropErr.nameError
  else if tile_w / tile_h = 0 then Except.error CropErr.divByZero
  else
    Except.ok
      { x_offset := 0,
        y_offset := Int.fdiv ((img_h : Int) - (img_w / (tile_w / tile_h) : Nat)) 2,
        crop_w := img_w,
        crop_h := img_w / (tile_w / tile_h),
        out_w := tile_w, out_h := tile_h }

/-- Claim C9 fails on the code: `crop_to_fit` does not return a tile-sized
image for every input.  For a 300x100 input and tile size (100, 100) the
integer aspect ratios are 3 and 1, the `img_aspect > tile_aspect` branch is
taken, and the undefined name `crop_width` (photomosaic.py line 224) makes
the call raise `NameError` instead of producing any image.  This theorem
evaluates the embedded code at that failing input. -/
theorem crop_to_fit_bug :
    crop_to_fit 300 100 100 100 = Except.error CropErr.nameError := by rfl

/-! ## Colour signatures (`salient_colors`, photomosaic.py lines 15-26)

`salient_colors` first calls `img.thumbnail((size, size))`, which resizes
the PIL image **in place** so that it fits inside a `size` x `size` box
(PIL only ever shrinks: each dimension that exceeds the box is scaled down
with integer floor division, clamped to at least 1).  It then flattens the
pixels, runs `scipy.cluster.vq.kmeans` for `clusters` centroids, assigns
each pixel to its nearest centroid (`vq`, squared Euclidean distance on
RGB, first index on ties), histograms the assignments, and returns the
centroids ordered by decreasing membership count (`(-counts).argsort()`).

`kmeans` and the resampling that produces the thumbnail's pixel data are
external collaborators (scipy / PIL), taken here as function parameters
`km` and `resample`; the facts the source relies on — the codebook has at
most `clusters` entries and consists of uint8 colour values (cf. the
"np.uint8 confuses sqlite3" comment at `insert`) — appear as hypotheses
where needed.  An image is a size plus a flattened pixel list; mutation of
the caller's image object is modelled by returning the mutated image. -/

structure Img where
  w : Nat
  h : Nat
  pixels : List (Nat × Nat × Nat)

/-- One resize step of PIL's `thumbnail`: shrink to fit one axis. -/
def thumbStep (p : Nat × Nat) (s : Nat) : Nat × Nat :=
  if s < p.2 then (max (p.1 * s / p.2) 1, s) else p

/-- Dimensions after `img.thumbnail((s, s))`: first fit the width, then
fit the height, exactly as PIL's two sequential conditionals do. -/
def thumbnailDims (w h s : Nat) : Nat × Nat :=
  thumbStep (if s < w then (s, max (h * s / w) 1) else (w, h)) s

/-- Squared Euclidean distance between RGB vectors, as `vq` scores. -/
def sqDistRGB (p c : Nat × Nat × Nat) : Int :=
  ((p.1 : Int) - (c.1 : Int)) * ((p.1 : Int) - (c.1 : Int)) +
  ((p.2.1 : Int) - (c.2.1 : Int)) * ((p.2.1 : Int) - (c.2.1 : Int)) +
  ((p.2.2 : Int) - (c.2.2 : Int)) * ((p.2.2 : Int) - (c.2.2 : Int))

def vqIndexAux (p : Nat × Nat × Nat) :
    List (Nat × Nat × Nat) → Nat → Nat × Int → Nat
  | [], _, best => best.1
  | c :: cs, i, best =>
    if sqDistRGB p c < best.2 then vqIndexAux p cs (i + 1) (i, sqDistRGB p c)
    else vqIndexAux p cs (i + 1) best

/-- Index of the nearest centroid (first on ties), as `vq`/`argmin` pick. -/
def vqIndex (cents : List (Nat × Nat × Nat)) (p : Nat × Nat × Nat) : Nat :=
  match cents with
  | [] => 0
  | c :: cs => vqIndexAux p cs 1 (0, sqDistRGB p c)

/-- `scipy.histogram(vecs, len(colors))`: per-centroid membership counts
(for integer codes 0..n-1 over n bins the bin boundaries fall so that each
code counts into its own bin). -/
def histCounts (cents : List (Nat × Nat × Nat))
    (pix : List (Nat × Nat × Nat)) : List Nat :=
  (List.range cents.length).map fun i => pix.countP fun p => vqIndex cents p == i

/-- Ordering used to model `colors[(-counts).argsort()]`: by decreasing
membership count. -/
def countsLE (x y : (Nat × Nat × Nat) × Nat) : Bool := decide (y.2 ≤ x.2)

/-- Centroids paired with their membership counts, sorted by decreasing
count. -/
def salientPairs (resample : Img → Nat × Nat → List (Nat × Nat × Nat))
    (km : List (Nat × Nat × Nat) → Nat → List (Nat × Nat × Nat))
    (img : Img) (clusters size : Nat) : List ((Nat × Nat × Nat) × Nat) :=
  let pix := resample img (thumbnailDims img.w img.h size)
  let cents := km pix clusters
  isort countsLE (cents.zip (histCounts cents pix))

/-- `salient_colors(img, clusters, size)`: returns the image as mutated by
`img.thumbnail((size, size))` together with the abundance-ranked centroid
colours. -/
def salient_colors (resample : Img → Nat × Nat → List (Nat × Nat × Nat))
    (km : List (Nat × Nat × Nat) → Nat → List (Nat × Nat × Nat))
    (img : Img) (clusters size : Nat) : Img × List (Nat × Nat × Nat) :=
  (⟨(thumbnailDims img.w img.h size).1, (thumbnailDims img.w img.h size).2,
    resample img (thumbnailDims img.w img.h size)⟩,
   (salientPairs resample km img clusters size).map fun pc => pc.1)

theorem div_le_bound (a s d : Nat) (ha : a ≤ s) (hd : s < d) :
    a * s / d ≤ s := by
  have h1 : a * s ≤ s * d :=
    le_trans (Nat.mul_le_mul_right s ha) (Nat.mul_le_mul_left s (le_of_lt hd))
  calc a * s / d ≤ s * d / d := Nat.div_le_div_right h1
  _ = s := Nat.mul_div_cancel s (lt_of_le_of_lt (Nat.zero_le s) hd)

theorem thumbStep_le (p : Nat × Nat) (s : Nat) (hs : 1 ≤ s) (hp1 : p.1 ≤ s) :
    (thumbStep p s).1 ≤ s ∧ (thumbStep p s).2 ≤ s := by
  unfold thumbStep
  by_cases h : s < p.2
  · rw [if_pos h]
    exact ⟨max_le (div_le_bound p.1 s p.2 hp1 h) hs, le_refl s⟩
  · rw [if_neg h]
    exact ⟨hp1, Nat.le_of_not_lt h⟩

theorem thumbnailDims_le (w h s : Nat) (hs : 1 ≤ s) :
    (thumbnailDims w h s).1 ≤ s ∧ (thumbnailDims w h s).2 ≤ s := by
  unfold thumbnailDims
  apply thumbStep_le _ s hs
  by_cases hw : s < w
  · rw [if_pos hw]
  · rw [if_neg hw]
    exact Nat.le_of_not_lt hw

theorem countsLE_total : ∀ x y : (Nat × Nat × Nat) × Nat,
    countsLE x y = true ∨ countsLE y x = true := by
  intro x y
  rcases le_total y.2 x.2 with h | h
  · left; simpa [countsLE]
  · right; simpa [countsLE]

theorem countsLE_trans : ∀ x y z : (Nat × Nat × Nat) × Nat,
    countsLE x y = true → countsLE y z = true → countsLE x z = true := by
  intro x y z h1 h2
  simp only [countsLE, decide_eq_true_eq] at h1 h2 ⊢
  omega

/-- Claim C5.  Under the facts the source assumes of the external k-means
(at most `k` centroids, centroids are uint8 colour values), the colour list
returned by `salient_colors` has at most `clusters` entries — when the
clustering finds fewer clusters it simply returns fewer colours, it does
not fail — every returned channel is an integer in [0, 255] (lower bound
by the `Nat` channel type), and the list is exactly the centroids ordered
by non-increasing cluster membership count. -/
theorem salient_colors_spec
    (resample : Img → Nat × Nat → List (Nat × Nat × Nat))
    (km : List (Nat × Nat × Nat) → Nat → List (Nat × Nat × Nat))
    (img : Img) (clusters size : Nat)
    (hlen : ∀ pix k, (km pix k).length ≤ k)
    (hbound : ∀ pix k c, c ∈ km pix k →
      c.1 ≤ 255 ∧ c.2.1 ≤ 255 ∧ c.2.2 ≤ 255) :
    (salient_colors resample km img clusters size).2.length ≤ clusters ∧
    (∀ c ∈ (salient_colors resample km img clusters size).2,
      c.1 ≤ 255 ∧ c.2.1 ≤ 255 ∧ c.2.2 ≤ 255) ∧
    (salient_colors resample km img clusters size).2 =
      (salientPairs resample km img clusters size).map (fun pc => pc.1) ∧
    (salientPairs resample km img clusters size).Pairwise fun x y => y.2 ≤ x.2 := by
  refine ⟨?_, ?_, rfl, ?_⟩
  · have h1 := hlen (resample img (thumbnailDims img.w img.h size)) clusters
    simpa [salient_colors, salientPairs, length_isort, List.length_zip,
      histCounts, min_self] using h1
  · intro c hc
    obtain ⟨pc, hpc, hpc1⟩ := List.mem_map.mp hc
    obtain ⟨c0, n0⟩ := pc
    simp only [salientPairs] at hpc
    rw [mem_isort] at hpc
    have hc0 := (List.of_mem_zip hpc).1
    have := hbound (resample img (thumbnailDims img.w img.h size)) clusters c0 hc0
    rw [← hpc1]
    exact this
  · have heq : salientPairs resample km img clusters size =
        isort countsLE
          ((km (resample img (thumbnailDims img.w img.h size)) clusters).zip
            (histCounts
              (km (resample img (thumbnailDims img.w img.h size)) clusters)
              (resample img (thumbnailDims img.w img.h size)))) := rfl
    rw [heq]
    refine List.Pairwise.imp ?_
      (pairwise_isort countsLE countsLE_total countsLE_trans _)
    intro x y hxy
    simpa [countsLE] using hxy

/-- Constant "k-means" used to instantiate the external collaborator in
witnesses: `k` copies of a fixed uint8 colour. -/
def kmW : List (Nat × Nat × Nat) → Nat → List (Nat × Nat × Nat) :=
  fun _ k => List.replicate k (10, 20, 30)

/-- Identity resampler used to instantiate the external collaborator. -/
def resampleW : Img → Nat × Nat → List (Nat × Nat × Nat) :=
  fun img _ => img.pixels

/-- A 200x150 two-pixel test image. -/
def imgW : Img := ⟨200, 150, [(1, 2, 3), (4, 5, 6)]⟩

/-- Witness for claim C5, instantiated with the constant clustering. -/
theorem salient_colors_spec_witness :
    (salient_colors resampleW kmW imgW 4 100).2.length ≤ 4 ∧
    (salient_colors resampleW kmW imgW 4 100).2 =
      (salientPairs resampleW kmW imgW 4 100).map (fun pc => pc.1) ∧
    (salientPairs resampleW kmW imgW 4 100).Pairwise fun x y => y.2 ≤ x.2 := by
  have h := salient_colors_spec resampleW kmW imgW 4 100
    (fun pix k => by simp [kmW])
    (fun pix k c hc => by
      simp only [kmW, List.mem_replicate] at hc
      rcases hc with ⟨-, rfl⟩
      exact ⟨by decide, by decide, by decide⟩)
  exact ⟨h.1, h.2.2.1, h.2.2.2⟩

/-! ## The staged `find_match` (photomosaic.py lines 181-207)

The first executed statement of `find_match` is line 185,
`target_l, target_a, target_b = map(rgb2lab, salient_colors(tile))[0]`.
The bare name `rgb2lab` is bound nowhere in the module — only
`import color_spaces as cs` is in scope, and the working call site at line
46 writes `cs.rgb2lab` — and Python evaluates `map`'s arguments left to
right, so every call raises `NameError` there: before
`salient_colors(tile)` runs (the tile is never thumbnailed) and before the
SELECT/UPDATE pipeline (`find_match_query`) executes.  The call leaves the
database and the caller's tile untouched and the exception propagates;
`photomosaic` (lines 129-135) catches nothing around the call, so a run
aborts at its first tile.  This is the same class of slip as
`crop_width`/`crop_w` in `crop_to_fit` (claim C9). -/

def find_match (tile : Img) (db : DB) (_max_usages : Nat) :
    (Except MatchErr Cand × DB) × Img :=
  ((Except.error MatchErr.nameError, db), tile)

/-- Tile loop of `photomosaic` (lines 129-135): for each tile in row-major
order, call `find_match` on the current database state.  Nothing in the
source catches the matcher's failure, so a failing call ends the run with
the database as the failing call left it; were a call to succeed, the loop
would continue on the returned state. -/
def photomosaicLoop : List Img → DB → Nat → Except MatchErr (List Cand) × DB
  | [], db, _ => (Except.ok [], db)
  | tile :: rest, db, maxU =>
    match find_match tile db maxU with
    | ((Except.error e, db1), _) => (Except.error e, db1)
    | ((Except.ok m, db1), _) =>
      match photomosaicLoop rest db1 maxU with
      | (Except.error e, db2) => (Except.error e, db2)
      | (Except.ok ms, db2) => (Except.ok (m :: ms), db2)

/-- Claim C1 (code_bug evaluation).  Even on `dbCap` — a pool whose only
image sits exactly at the usage cap, so a working matcher would have to
decide the boundary case — the staged `find_match` raises `NameError`
before its query and returns the pool untouched.  No call ever succeeds,
so the claimed bound on a successful match's pre-increment usage count and
the exclusion after M matches are never exercised by the staged program
(and `find_match_query_cap_boundary` shows the repaired pipeline would
still admit a candidate at the cap, against the claim's strict reading). -/
theorem find_match_cap_never_exercised :
    find_match imgW dbCap 5 = ((Except.error MatchErr.nameError, dbCap), imgW) :=
  rfl

/-- Claim C2 (code_bug evaluation).  The pool `dbDup` has an eligible
signature entry, yet `find_match` neither scores nor returns anything: the
call dies with `NameError` at line 185.  The unreachable query pipeline
does implement the claimed score-sort-truncate-select behaviour — see
`find_match_query_nearest` — but the staged `find_match` never runs it. -/
theorem find_match_never_scores :
    selectCands 0 0 dbDup 5 ≠ [] ∧
    find_match imgW dbDup 5 = ((Except.error MatchErr.nameError, dbDup), imgW) :=
  ⟨by simp [selectCands, dbDup, List.filterMap, List.find?], rfl⟩

/-- Claim C3 (code_bug evaluation).  No `find_match` call succeeds, so the
claimed increment-before-return never happens: on `dbDup` the call fails
and hands back the database — every usage counter included — unchanged. -/
theorem find_match_never_increments :
    (find_match imgW dbDup 5).1.1 = Except.error MatchErr.nameError ∧
    (find_match imgW dbDup 5).1.2 = dbDup :=
  ⟨rfl, rfl⟩

/-- Claim C4 (code_bug evaluation).  `find_match` fails even though
`dbDup` has an eligible signature entry, so failure is not equivalent to
pool exhaustion as claimed, and the line-204 subscript of `fetchone`'s
`None` (the PoolExhausted condition) is unreachable.  The `NameError` does
propagate out of the tile loop with the state unchanged — but it does so
on every call, eligible entries or not. -/
theorem find_match_fails_despite_eligible :
    selectCands 0 0 dbDup 5 ≠ [] ∧
    photomosaicLoop [imgW] dbDup 5 = (Except.error MatchErr.nameError, dbDup) :=
  ⟨by simp [selectCands, dbDup, List.filterMap, List.find?], rfl⟩

/-- Claim C10, counterexample.  The claim includes that every tile passed
through `find_match` is shrunk by the in-place extraction; in fact the
200x150 tile `imgW` comes back from `find_match` untouched, its longer
side still 200 > 100, because the `NameError` at line 185 fires before
`salient_colors(tile)` is ever evaluated. -/
theorem salient_colors_inplace_counterexample :
    (find_match imgW dbDup 5).2 = imgW ∧ 100 < imgW.w :=
  ⟨rfl, by decide⟩

/-- Claim C10 (amended).  `salient_colors` does mutate its argument in
place — the caller's image comes back with both sides at most the `size`
parameter (default 100), there is no private copy — so its direct caller
(`create_image_pool`, line 45) sees shrunk images; but tiles passed
through `find_match` are not shrunk, because every `find_match` call
raises `NameError` on the unbound name `rgb2lab` before
`salient_colors(tile)` is evaluated, so the tile comes back exactly as it
went in. -/
theorem salient_colors_inplace
    (resample : Img → Nat × Nat → List (Nat × Nat × Nat))
    (km : List (Nat × Nat × Nat) → Nat → List (Nat × Nat × Nat))
    (img : Img) (clusters s : Nat) (hs : 1 ≤ s) :
    ((salient_colors resample km img clusters s).1.w ≤ s ∧
     (salient_colors resample km img clusters s).1.h ≤ s) ∧
    ∀ (tile : Img) (db : DB) (maxU : Nat), (find_match tile db maxU).2 = tile :=
  ⟨thumbnailDims_le img.w img.h s hs, fun _ _ _ => rfl⟩

/-- Witness for the amended claim C10: the 200x150 test image comes back
at most 100x100 from `salient_colors`, while the same image sent through
`find_match` as a tile comes back unchanged. -/
theorem salient_colors_inplace_witness :
    ((salient_colors resampleW kmW imgW 4 100).1.w ≤ 100 ∧
     (salient_colors resampleW kmW imgW 4 100).1.h ≤ 100) ∧
    (find_match imgW dbDup 5).2 = imgW := by
  have h := salient_colors_inplace resampleW kmW imgW 4 100 (by decide)
  exact ⟨h.1, h.2 imgW dbDup 5⟩

end Photomosaic
